import Mathlib

/-!
Verification of the BodalAI static-analysis gate (`runtime/ast_linter.py`).

A shallow embedding of the AST linter: the Finding model, the alias
resolution table, the call-target resolver, the rule engine (IMP001,
CAL001, CAL002, CAL003, FS001), the per-file analyzer (`lint_file`) and
the gate driver (`main`), together with theorems settling the claims
about them.

Machine strings are modelled as Lean `String`s; the lexical path
normalization `os.path.normpath` (POSIX flavour) is embedded over the
underlying character lists so that every definition is executable by
kernel reduction.
-/

namespace AstLinter

/-! ## String and path helpers

`splitOnChar` mirrors Python `str.split(sep)` for a one-character
separator; `normpathList` mirrors CPython `posixpath.normpath`, and
`isAbs` mirrors `posixpath.isabs`. -/

/-- Python `s.split(sep)` for a single-character separator, over the
character list of the string.  `""` splits to `[""]`. -/
def splitOnChar (sep : Char) : List Char → List (List Char)
  | [] => [[]]
  | x :: xs =>
    match splitOnChar sep xs with
    | [] => [[]]
    | g :: gs => if x = sep then [] :: g :: gs else (x :: g) :: gs

/-- Python `sep.join(comps)` for separator `/`. -/
def joinSlash : List (List Char) → List Char
  | [] => []
  | [c] => c
  | c :: rest => c ++ '/' :: joinSlash rest

/-- The `initial_slashes` computation of `posixpath.normpath`: 2 for a
path starting with exactly two slashes, 1 for any other leading slash,
0 otherwise. -/
def npInitialSlashes (p : List Char) : Nat :=
  match p with
  | '/' :: '/' :: '/' :: _ => 1
  | '/' :: '/' :: _ => 2
  | '/' :: _ => 1
  | _ => 0

/-- One step of the component loop of `posixpath.normpath`. -/
def npStep (initialSlashes : Nat) (nc : List (List Char)) (comp : List Char) :
    List (List Char) :=
  if comp = [] ∨ comp = ['.'] then nc
  else if comp ≠ ['.', '.'] ∨ (initialSlashes = 0 ∧ nc = []) ∨
      (nc ≠ [] ∧ nc.getLast? = some ['.', '.']) then
    nc ++ [comp]
  else if nc ≠ [] then nc.dropLast
  else nc

/-- CPython `posixpath.normpath` over a character list. -/
def normpathList (p : List Char) : List Char :=
  if p = [] then ['.']
  else
    let islashes := npInitialSlashes p
    let nc := (splitOnChar '/' p).foldl (npStep islashes) []
    let joined := List.replicate islashes '/' ++ joinSlash nc
    if joined = [] then ['.'] else joined

/-- Python `os.path.normpath` (POSIX). -/
def normpath (s : String) : String := ⟨normpathList s.data⟩

/-- Python `os.path.isabs` (POSIX): the path starts with `/`. -/
def isAbs (s : String) : Bool :=
  match s.data with
  | '/' :: _ => true
  | _ => false

/-- Python `s.startswith(pre)`. -/
def strStartsWith (s pre : String) : Bool :=
  pre.data.isPrefixOf s.data

/-- Python `c in s` for a single character `c`. -/
def containsChar (s : String) (c : Char) : Bool :=
  s.data.contains c

/-- Python `s.split(".")[0]`: the top-level segment of a dotted module
path. -/
def topSegment (s : String) : String :=
  ⟨(splitOnChar '.' s.data).headD []⟩

/-! ## Configuration constants (module-level constants of the source) -/

/-- The `DEFAULT_DENY_IMPORTS` constant of `ast_linter.py`. -/
def defaultDenyImports : List String :=
  ["socket", "requests", "subprocess", "multiprocessing",
   "ftplib", "paramiko", "psutil"]

/-- The `DANGEROUS_CALLS` constant of `ast_linter.py`: `(module, function)` pairs. -/
def dangerousCalls : List (String × String) :=
  [("os", "system"), ("os", "popen"), ("builtins", "eval"), ("builtins", "exec")]

/-- The `WRITE_FUNCS` constant of `ast_linter.py` (declared in the source, never
consulted by its logic; kept for completeness). -/
def writeFuncs : List (Option String × String) :=
  [(none, "open")]

/-! ## Finding model -/

/-- The `Finding` record of the source: file path, 1-based line (0 if
unknown), 0-based column, level string (`"ERROR"` or `"WARN"`), rule
code, and message. -/
structure Finding where
  file : String
  line : Nat
  col : Nat
  level : String
  code : String
  msg : String
deriving DecidableEq, Repr

/-! ## Visitor configuration and state -/

/-- The configuration fields of `LintVisitor.__init__`: the file path
being analyzed, the deny-import set, and the two allowed write roots
(already passed through `os.path.normpath`, as the constructor does). -/
structure Ctx where
  path : String
  denyImports : List String
  projectRoot : String
  artifactsRoot : String

/-- The alias resolution table: local name to canonical dotted module
path.  Later bindings shadow earlier ones (lookup finds the most recent
insertion), matching dict overwrite semantics. -/
abbrev AliasMap := List (String × String)

/-- The mutable state of `LintVisitor`: the alias map and the findings
accumulated so far, in emission order. -/
structure VState where
  aliasMap : AliasMap
  findings : List Finding

/-- The method `LintVisitor.error`: append an ERROR finding at a node's position. -/
def mkError (c : Ctx) (line col : Nat) (code msg : String) : Finding :=
  ⟨c.path, line, col, "ERROR", code, msg⟩

/-- The method `LintVisitor.warn`: a WARN finding (the method exists in the source
but is never invoked by any rule). -/
def mkWarn (c : Ctx) (line col : Nat) (code msg : String) : Finding :=
  ⟨c.path, line, col, "WARN", code, msg⟩

def addFinding (st : VState) (f : Finding) : VState :=
  { st with findings := st.findings ++ [f] }

def addFindings (st : VState) (fs : List Finding) : VState :=
  { st with findings := st.findings ++ fs }

/-! ## Abstract syntax

A closed tagged-variant embedding of exactly the node kinds the linter
inspects: names, attribute accesses, string literals, other constants,
calls (with positional and keyword arguments), a catch-all expression
container, import statements, expression statements and a catch-all
statement container.  Nodes that carry a source position in the rules
(`import`, `from-import`, `call`) carry `line`/`col` fields, matching
`getattr(node, "lineno", 0)` / `getattr(node, "col_offset", 0)`. -/

/-- One `alias` node of an import statement: the dotted module (or the
bound name) and the optional `as` rename. -/
structure ImpAlias where
  name : String
  asname : Option String

mutual
inductive Expr where
  | ename (id : String)
  | eattr (value : Expr) (attrName : String)
  | estr (s : String)
  | econstOther
  | ecall (line col : Nat) (func : Expr) (args : ExprList) (kwargs : KwList)
  | eother (children : ExprList)
inductive ExprList where
  | nil
  | cons (head : Expr) (tail : ExprList)
inductive KwList where
  | nil
  | cons (kwName : Option String) (value : Expr) (tail : KwList)
end

/-- Python `len(node.args)` for the positional-argument list. -/
def ExprList.length : ExprList → Nat
  | .nil => 0
  | .cons _ t => 1 + t.length

/-- Python `node.args[i]` as an optional lookup. -/
def ExprList.get? : ExprList → Nat → Option Expr
  | .nil, _ => none
  | .cons e _, 0 => some e
  | .cons _ t, n + 1 => t.get? n

mutual
inductive Stmt where
  | simport (line col : Nat) (names : List ImpAlias)
  | simportFrom (line col : Nat) (moduleName : Option String) (names : List ImpAlias)
  | sexpr (e : Expr)
  | sblock (exprs : ExprList) (body : StmtList)
inductive StmtList where
  | nil
  | cons (head : Stmt) (tail : StmtList)
end

/-! ## Call-target resolver -/

/-- The method `LintVisitor._resolve_base`: resolve the base expression of an
attribute chain to a dotted string, consulting the alias map for bare
names and returning `""` for unresolvable bases. -/
def resolveBase (am : AliasMap) : Expr → String
  | .ename id => (List.lookup id am).getD id
  | .eattr v a =>
    let base := resolveBase am v
    if base = "" then a else base ++ "." ++ a
  | _ => ""

/-- The method `LintVisitor._resolve_call_target`: best-effort `(module, function)`
for a callee expression.  `none` models Python `None`; `some ""` models
the (distinct) empty string produced for unresolvable attribute bases. -/
def resolveCallTarget (am : AliasMap) : Expr → Option String × String
  | .ename id =>
    if id = "eval" ∨ id = "exec" then (some "builtins", id)
    else if id = "open" then (none, "open")
    else
      match List.lookup id am with
      | some m => if m = "" then (none, id) else (some m, "")
      | none => (none, id)
  | .eattr v a => (some (resolveBase am v), a)
  | _ => (none, "")

/-! ## Rule engine -/

/-- The write-path check of `visit_Call` (lines 122-134): given the
positional arguments of a call resolved to builtin `open`, emit `FS001`
when the mode is a write-enabling string literal and the path is a
string literal whose normalized form is absolute and outside both
allowed roots. -/
def fsCheck (c : Ctx) (line col : Nat) (args : ExprList) : List Finding :=
  let writeMode : Bool :=
    match args.get? 1 with
    | some (.estr s) => containsChar s 'w' || containsChar s 'a' || containsChar s 'x'
    | _ => false
  match args.get? 0 with
  | some (.estr p) =>
    if writeMode then
      let norm := normpath p
      if strStartsWith norm c.projectRoot || strStartsWith norm c.artifactsRoot ||
          strStartsWith norm "./" || !(isAbs norm) then []
      else [mkError c line col "FS001" ("Write outside allowed dirs: '" ++ p ++ "'")]
    else []
  | _ => []

/-- The findings emitted at one `Call` node by `visit_Call` (before the
generic visit of its children), in emission order CAL001, CAL002,
CAL003, FS001.  The source never consults `node.keywords` here. -/
def callRuleFindings (c : Ctx) (am : AliasMap) (line col : Nat)
    (func : Expr) (args : ExprList) : List Finding :=
  let r := resolveCallTarget am func
  let f1 : List Finding :=
    match r.1 with
    | some m =>
      if (m, r.2) ∈ dangerousCalls then
        [mkError c line col "CAL001" ("Dangerous call: " ++ m ++ "." ++ r.2)]
      else []
    | none => []
  let f2 : List Finding :=
    match r.1 with
    | some m =>
      if m ≠ "" ∧ topSegment m = "subprocess" then
        [mkError c line col "CAL002" "Process spawning via 'subprocess' is disallowed"]
      else []
    | none => []
  let f3 : List Finding :=
    match r.1 with
    | some m =>
      if m ≠ "" ∧ (topSegment m = "socket" ∨ topSegment m = "requests") then
        [mkError c line col "CAL003" ("Network usage via '" ++ m ++ "' is disallowed")]
      else []
    | none => []
  let f4 : List Finding :=
    if r.1 = none ∧ r.2 = "open" ∧ 1 ≤ args.length then fsCheck c line col args
    else []
  f1 ++ f2 ++ f3 ++ f4

mutual
/-- The findings produced by visiting one expression node: the call
rules at `Call` nodes, then the generic visit of children in field
order (`func`, `args`, `keywords`).  Expressions never mutate the alias
map, so it is threaded read-only. -/
def exprFindings (c : Ctx) (am : AliasMap) : Expr → List Finding
  | .ename _ => []
  | .eattr v _ => exprFindings c am v
  | .estr _ => []
  | .econstOther => []
  | .ecall line col f args kwargs =>
    callRuleFindings c am line col f args ++ exprFindings c am f ++
      exprListFindings c am args ++ kwListFindings c am kwargs
  | .eother cs => exprListFindings c am cs
def exprListFindings (c : Ctx) (am : AliasMap) : ExprList → List Finding
  | .nil => []
  | .cons e es => exprFindings c am e ++ exprListFindings c am es
def kwListFindings (c : Ctx) (am : AliasMap) : KwList → List Finding
  | .nil => []
  | .cons _ v rest => exprFindings c am v ++ kwListFindings c am rest
end

/-- The per-alias loop of `visit_Import`: check the top segment against
the deny set, then record the binding (the `as` name if present, else
the top segment) to the full dotted module path. -/
def visitImportAliases (c : Ctx) (line col : Nat) (st : VState) :
    List ImpAlias → VState
  | [] => st
  | a :: rest =>
    let mod := topSegment a.name
    let st1 :=
      if mod ∈ c.denyImports then
        addFinding st (mkError c line col "IMP001" ("Disallowed import: '" ++ mod ++ "'"))
      else st
    let st2 :=
      match a.asname with
      | some s =>
        if s = "" then { st1 with aliasMap := (mod, a.name) :: st1.aliasMap }
        else { st1 with aliasMap := (s, a.name) :: st1.aliasMap }
      | none => { st1 with aliasMap := (mod, a.name) :: st1.aliasMap }
    visitImportAliases c line col st2 rest

/-- The per-alias loop of `visit_ImportFrom`: record each imported name
(or its `as` rename) as bound to `node.module or alias.name`. -/
def recordFromAliases (moduleName : Option String) (am : AliasMap) :
    List ImpAlias → AliasMap
  | [] => am
  | a :: rest =>
    let localName :=
      match a.asname with
      | some s => if s = "" then a.name else s
      | none => a.name
    let target :=
      match moduleName with
      | some m => if m = "" then a.name else m
      | none => a.name
    recordFromAliases moduleName ((localName, target) :: am) rest

mutual
/-- Visiting one statement: dispatch as `ast.NodeVisitor.visit` does —
`visit_Import` / `visit_ImportFrom` for imports, the generic visit for
everything else (which reaches `visit_Call` at call expressions). -/
def visitStmt (c : Ctx) (st : VState) : Stmt → VState
  | .simport line col names => visitImportAliases c line col st names
  | .simportFrom line col moduleName names =>
    let st1 :=
      match moduleName with
      | some m =>
        if m ≠ "" ∧ topSegment m ∈ c.denyImports then
          addFinding st (mkError c line col "IMP001"
            ("Disallowed import: '" ++ topSegment m ++ "'"))
        else st
      | none => st
    { st1 with aliasMap := recordFromAliases moduleName st1.aliasMap names }
  | .sexpr e => addFindings st (exprFindings c st.aliasMap e)
  | .sblock exprs body =>
    let st1 := addFindings st (exprListFindings c st.aliasMap exprs)
    visitStmtList c st1 body
def visitStmtList (c : Ctx) (st : VState) : StmtList → VState
  | .nil => st
  | .cons s rest => visitStmtList c (visitStmt c st s) rest
end

/-- Analysis of a successfully parsed module: a fresh visitor state,
then the traversal of the top-level statements. -/
def lintParsed (c : Ctx) (body : StmtList) : List Finding :=
  (visitStmtList c ⟨[], []⟩ body).findings

/-! ## File analyzer and gate driver -/

/-- The outcome of `ast.parse` on a file's content: a syntax error
(with the error's optionally-available line and 1-based offset, and its
string rendering) or a parsed module body. -/
inductive ParseResult where
  | syntaxError (lineno : Option Nat) (offset : Option Nat) (errStr : String)
  | parsed (body : StmtList)

/-- The outcome of reading a file inside `lint_file`'s `try` block: an
I/O failure (which raises an exception the source does not catch — only
`SyntaxError` is handled) or content with its parse outcome. -/
inductive ReadResult where
  | readError
  | src (p : ParseResult)

/-- The function `lint_file`: one `SYN001` finding on syntax error (line/column
defaulting to 0 when unavailable), the visitor's findings on success,
and an uncaught exception (`Except.error`) on a read failure. -/
def lintFile (deny : List String) (projectRoot artifactsRoot path : String) :
    ReadResult → Except Unit (List Finding)
  | .readError => .error ()
  | .src (.syntaxError l off emsg) =>
    .ok [⟨path, l.getD 0, off.getD 0, "ERROR", "SYN001", "SyntaxError: " ++ emsg⟩]
  | .src (.parsed body) =>
    .ok (lintParsed ⟨path, deny, normpath projectRoot, normpath artifactsRoot⟩ body)

/-- The aggregation loop of `main`: `lint_file` over each input in
order, concatenating findings; an uncaught exception aborts the batch
with nothing rendered. -/
def collectFindings (deny : List String) (projectRoot artifactsRoot : String) :
    List (String × ReadResult) → Except Unit (List Finding)
  | [] => .ok []
  | (p, r) :: rest => do
    let fs ← lintFile deny projectRoot artifactsRoot p r
    let fsRest ← collectFindings deny projectRoot artifactsRoot rest
    pure (fs ++ fsRest)

/-- Python `any(f.level == "ERROR" for f in findings)`. -/
def hasError (fs : List Finding) : Bool :=
  fs.any (fun f => f.level == "ERROR")

/-- Python `any(f.level == "WARN" for f in findings)`. -/
def hasWarn (fs : List Finding) : Bool :=
  fs.any (fun f => f.level == "WARN")

/-- Whether every finding in the list has level ERROR. -/
def allError (fs : List Finding) : Bool :=
  fs.all (fun f => f.level == "ERROR")

/-- Whether the list contains an `FS001` finding. -/
def hasFS001 (fs : List Finding) : Bool :=
  fs.any (fun f => f.code == "FS001")

/-- The exit disposition of `main`: 2 when an ERROR is present, or when
fail-on-warning is set and a WARN is present; else 0. -/
def gateExit (failOnWarn : Bool) (fs : List Finding) : Nat :=
  if hasError fs || (failOnWarn && hasWarn fs) then 2 else 0

/-- The findings a successful analysis reports (empty on an aborted
one); projection used to state membership facts. -/
def okFindings : Except Unit (List Finding) → List Finding
  | .ok fs => fs
  | .error _ => []

/-- The function `main` end to end: analyze every file, render the full findings
list, and exit with the disposition code.  An uncaught exception while
analyzing one file (`Except.error`) aborts the run before rendering. -/
def runGate (deny : List String) (projectRoot artifactsRoot : String)
    (failOnWarn : Bool) (files : List (String × ReadResult)) :
    Except Unit (List Finding × Nat) := do
  let fs ← collectFindings deny projectRoot artifactsRoot files
  pure (fs, gateExit failOnWarn fs)


/-! ## Helper lemmas -/

/-- Whether an optional expression is a string literal (the
`isinstance(x, (ast.Str, ast.Constant))`-with-string-value test). -/
def isStrLit : Option Expr → Bool
  | some (.estr _) => true
  | _ => false

theorem allError_append (a b : List Finding) :
    allError (a ++ b) = (allError a && allError b) :=
  List.all_append

theorem resolveCallTarget_open (am : AliasMap) :
    resolveCallTarget am (.ename "open") = (none, "open") := by
  simp [resolveCallTarget]

/-- For a call whose callee is the bare name `open`, the only rule that
can contribute findings is the write-path rule. -/
theorem callRuleFindings_open (c : Ctx) (am : AliasMap) (line col : Nat)
    (args : ExprList) :
    callRuleFindings c am line col (.ename "open") args =
      if 1 ≤ args.length then fsCheck c line col args else [] := by
  simp [callRuleFindings, resolveCallTarget_open]

/-! ## Claim theorems -/

/-- Claim C6: a file whose content fails to parse yields exactly one
Finding — level ERROR, code SYN001, message containing the parser's
error description, with the reported line and column defaulting to 0
when unavailable — and no rule checks run, so no other Finding is
produced for that file. -/
theorem parseFailure_exactlyOneSyn001 (deny : List String)
    (projectRoot artifactsRoot path : String) (l off : Option Nat) (emsg : String) :
    lintFile deny projectRoot artifactsRoot path (.src (.syntaxError l off emsg)) =
      .ok [⟨path, l.getD 0, off.getD 0, "ERROR", "SYN001", "SyntaxError: " ++ emsg⟩] :=
  rfl

/-- Claim C3: a call `open(path, mode)` whose mode literal enables
writing and whose path literal normalizes to an absolute path outside
the project root, the artifacts root, and `./`, produces exactly one
FS001 ERROR finding for that call, naming the literal path. -/
theorem openWriteOutsideRoots_exactlyOneFS001 (c : Ctx) (am : AliasMap)
    (line col : Nat) (p m : String)
    (hm : (containsChar m 'w' || containsChar m 'a' || containsChar m 'x') = true)
    (habs : isAbs (normpath p) = true)
    (hproj : strStartsWith (normpath p) c.projectRoot = false)
    (hart : strStartsWith (normpath p) c.artifactsRoot = false)
    (hdot : strStartsWith (normpath p) "./" = false) :
    exprFindings c am
      (.ecall line col (.ename "open")
        (.cons (.estr p) (.cons (.estr m) .nil)) .nil) =
      [⟨c.path, line, col, "ERROR", "FS001", "Write outside allowed dirs: '" ++ p ++ "'"⟩] := by
  simp [exprFindings, exprListFindings, kwListFindings, callRuleFindings_open,
    ExprList.length, fsCheck, ExprList.get?, hm, hproj, hart, hdot, habs, mkError]

/-- Witness for C3 at `open("/etc/passwd", "w")` with roots `/project`
and `/artifacts`. -/
theorem openWriteOutsideRoots_exactlyOneFS001_witness :
    exprFindings ⟨"w.py", defaultDenyImports, "/project", "/artifacts"⟩ []
      (.ecall 1 0 (.ename "open")
        (.cons (.estr "/etc/passwd") (.cons (.estr "w") .nil)) .nil) =
      [⟨"w.py", 1, 0, "ERROR", "FS001", "Write outside allowed dirs: '/etc/passwd'"⟩] :=
  openWriteOutsideRoots_exactlyOneFS001 ⟨"w.py", defaultDenyImports, "/project", "/artifacts"⟩
    [] 1 0 "/etc/passwd" "w" (by decide) (by decide) (by decide) (by decide) (by decide)

/-- If the first positional argument is not a string literal, or the
second (mode) positional argument is not a string literal, the
write-path check emits nothing. -/
theorem fsCheck_eq_nil (c : Ctx) (line col : Nat) (args : ExprList)
    (h : isStrLit (args.get? 0) = false ∨ isStrLit (args.get? 1) = false) :
    fsCheck c line col args = [] := by
  rcases hg0 : args.get? 0 with _ | e0
  · simp [fsCheck, hg0]
  · cases e0 with
    | estr p =>
      rcases h with h | h
      · rw [hg0] at h
        simp [isStrLit] at h
      · rcases hg1 : args.get? 1 with _ | e1
        · simp [fsCheck, hg0, hg1]
        · cases e1 with
          | estr s =>
            rw [hg1] at h
            simp [isStrLit] at h
          | ename i => simp [fsCheck, hg0, hg1]
          | eattr v a => simp [fsCheck, hg0, hg1]
          | econstOther => simp [fsCheck, hg0, hg1]
          | ecall l2 c2 f2 a2 k2 => simp [fsCheck, hg0, hg1]
          | eother cs => simp [fsCheck, hg0, hg1]
    | ename i => simp [fsCheck, hg0]
    | eattr v a => simp [fsCheck, hg0]
    | econstOther => simp [fsCheck, hg0]
    | ecall l2 c2 f2 a2 k2 => simp [fsCheck, hg0]
    | eother cs => simp [fsCheck, hg0]

/-- Claim C7: when the path or the mode of an `open` call is not a
compile-time string literal, no FS001 finding is produced for that
call. -/
theorem nonLiteralOpen_noFS001 (c : Ctx) (am : AliasMap) (line col : Nat)
    (args : ExprList)
    (h : isStrLit (args.get? 0) = false ∨ isStrLit (args.get? 1) = false) :
    hasFS001 (callRuleFindings c am line col (.ename "open") args) = false := by
  rw [callRuleFindings_open, fsCheck_eq_nil c line col args h]
  split <;> rfl

/-- Witness for C7 at `open(p, "w")` with a variable path. -/
theorem nonLiteralOpen_noFS001_witness :
    hasFS001 (callRuleFindings ⟨"v.py", defaultDenyImports, "/project", "/artifacts"⟩ []
      1 0 (.ename "open") (.cons (.ename "p") (.cons (.estr "w") .nil))) = false :=
  nonLiteralOpen_noFS001 ⟨"v.py", defaultDenyImports, "/project", "/artifacts"⟩ [] 1 0
    (.cons (.ename "p") (.cons (.estr "w") .nil)) (Or.inl (by decide))

/-- Claim C8: a write-mode `open` whose literal path normalizes to a
relative (non-absolute) path — including `..`-escaping ones — produces
no FS001 finding: the rule accepts every relative literal path. -/
theorem relativeOpen_noFS001 (c : Ctx) (am : AliasMap) (line col : Nat)
    (p m : String) (rest : ExprList)
    (hm : (containsChar m 'w' || containsChar m 'a' || containsChar m 'x') = true)
    (hrel : isAbs (normpath p) = false) :
    hasFS001 (callRuleFindings c am line col (.ename "open")
      (.cons (.estr p) (.cons (.estr m) rest))) = false := by
  rw [callRuleFindings_open]
  have hfs : fsCheck c line col (.cons (.estr p) (.cons (.estr m) rest)) = [] := by
    simp [fsCheck, ExprList.get?, hm, hrel]
  rw [hfs]
  split <;> rfl

/-- Witness for C8 at `open("../../etc/passwd", "w")`: the normalized
path escapes both roots yet no finding is produced. -/
theorem relativeOpen_noFS001_witness :
    hasFS001 (callRuleFindings ⟨"r.py", defaultDenyImports, "/project", "/artifacts"⟩ []
      1 0 (.ename "open")
      (.cons (.estr "../../etc/passwd") (.cons (.estr "w") .nil))) = false :=
  relativeOpen_noFS001 ⟨"r.py", defaultDenyImports, "/project", "/artifacts"⟩ [] 1 0
    "../../etc/passwd" "w" .nil (by decide) (by decide)

/-- Claim C10: an `open` call with at most one positional argument —
path or write mode passed as keyword arguments instead — produces no
FS001 finding: the rule inspects only positional arguments (keyword
arguments never appear in the rule logic). -/
theorem keywordOpen_noFS001 (c : Ctx) (am : AliasMap) (line col : Nat)
    (args : ExprList) (hlen : args.length ≤ 1) :
    hasFS001 (callRuleFindings c am line col (.ename "open") args) = false := by
  have h1 : args.get? 1 = none := by
    match args, hlen with
    | .nil, _ => rfl
    | .cons e .nil, _ => rfl
    | .cons e (.cons e2 t), h => simp [ExprList.length] at h
  rw [callRuleFindings_open, fsCheck_eq_nil c line col args (Or.inr (by rw [h1]; rfl))]
  split <;> rfl

/-- Witness for C10 at `open("/etc/passwd", mode="w")`: one positional
argument, the write mode only as a keyword. -/
theorem keywordOpen_noFS001_witness :
    hasFS001 (callRuleFindings ⟨"k.py", defaultDenyImports, "/project", "/artifacts"⟩ []
      1 0 (.ename "open") (.cons (.estr "/etc/passwd") .nil)) = false :=
  keywordOpen_noFS001 ⟨"k.py", defaultDenyImports, "/project", "/artifacts"⟩ [] 1 0
    (.cons (.estr "/etc/passwd") .nil) (by decide)

/-- Claim C4: a file importing a module whose top-level segment is in
the deny set — via `import M`, `import M.sub` (any `M` with denied top
segment), or `from M import Y`, aliased or not — has exactly one
IMP001 ERROR finding naming that module in its analysis result. -/
theorem denyImport_exactlyOneImp001 (deny : List String)
    (projectRoot artifactsRoot path M : String) (asn : Option String)
    (names : List ImpAlias) (line col : Nat)
    (hM : topSegment M ∈ deny) (hne : M ≠ "") :
    lintFile deny projectRoot artifactsRoot path
        (.src (.parsed (.cons (.simport line col [⟨M, asn⟩]) .nil))) =
      .ok [⟨path, line, col, "ERROR", "IMP001",
        "Disallowed import: '" ++ topSegment M ++ "'"⟩] ∧
    lintFile deny projectRoot artifactsRoot path
        (.src (.parsed (.cons (.simportFrom line col (some M) names) .nil))) =
      .ok [⟨path, line, col, "ERROR", "IMP001",
        "Disallowed import: '" ++ topSegment M ++ "'"⟩] := by
  constructor
  · simp only [lintFile, lintParsed, visitStmtList, visitStmt, visitImportAliases]
    rw [if_pos hM]
    cases asn with
    | none => rfl
    | some s =>
      by_cases hs : s = "" <;> simp [hs, addFinding, mkError]
  · simp only [lintFile, lintParsed, visitStmtList, visitStmt]
    rw [if_pos ⟨hne, hM⟩]
    simp [addFinding, mkError]

/-- Witness for C4 with `import socket as s` and
`from socket import gethostname` against the default deny set. -/
theorem denyImport_exactlyOneImp001_witness :
    lintFile defaultDenyImports "/project" "/artifacts" "i.py"
        (.src (.parsed (.cons (.simport 1 0 [⟨"socket", some "s"⟩]) .nil))) =
      .ok [⟨"i.py", 1, 0, "ERROR", "IMP001",
        "Disallowed import: '" ++ topSegment "socket" ++ "'"⟩] ∧
    lintFile defaultDenyImports "/project" "/artifacts" "i.py"
        (.src (.parsed (.cons (.simportFrom 1 0 (some "socket")
          [⟨"gethostname", none⟩]) .nil))) =
      .ok [⟨"i.py", 1, 0, "ERROR", "IMP001",
        "Disallowed import: '" ++ topSegment "socket" ++ "'"⟩] :=
  denyImport_exactlyOneImp001 defaultDenyImports "/project" "/artifacts" "i.py"
    "socket" (some "s") [⟨"gethostname", none⟩] 1 0 (by decide) (by decide)

/-- After `import subprocess as a`, the callee `a.Popen` resolves
through the alias table to module `subprocess`. -/
theorem resolveCallTarget_aliasedPopen (a : String) :
    resolveCallTarget [(a, "subprocess")] (.eattr (.ename a) "Popen") =
      (some "subprocess", "Popen") := by
  simp [resolveCallTarget, resolveBase, List.lookup]

/-- Claim C5: for any (nonempty) alias `a`, a file `import subprocess
as a` followed by `a.Popen(...)` yields a CAL002 ERROR finding for that
call: alias resolution maps the callee back to `subprocess`, so
aliasing does not evade detection. -/
theorem aliasedSubprocessPopen_cal002 (deny : List String)
    (projectRoot artifactsRoot path a : String) (ha : a ≠ "")
    (l1 c1 l2 c2 : Nat) (args : ExprList) (kwargs : KwList) :
    (⟨path, l2, c2, "ERROR", "CAL002",
      "Process spawning via 'subprocess' is disallowed"⟩ : Finding) ∈
      okFindings (lintFile deny projectRoot artifactsRoot path (.src (.parsed
        (.cons (.simport l1 c1 [⟨"subprocess", some a⟩])
          (.cons (.sexpr (.ecall l2 c2 (.eattr (.ename a) "Popen") args kwargs))
            .nil))))) := by
  have hcr : ∀ cc : Ctx, callRuleFindings cc [(a, "subprocess")] l2 c2
      (.eattr (.ename a) "Popen") args =
      [mkError cc l2 c2 "CAL002" "Process spawning via 'subprocess' is disallowed"] := by
    intro cc
    rw [callRuleFindings, resolveCallTarget_aliasedPopen]
    simp [dangerousCalls, show topSegment "subprocess" = "subprocess" from by decide]
  simp only [okFindings, lintFile, lintParsed, visitStmtList, visitStmt,
    visitImportAliases, if_neg ha]
  split <;>
    simp [addFinding, addFindings, exprFindings, hcr, mkError, List.mem_append]

/-- Witness for C5: `import subprocess as sp` then `sp.Popen("ls")`. -/
theorem aliasedSubprocessPopen_cal002_witness :
    (⟨"c5.py", 2, 0, "ERROR", "CAL002",
      "Process spawning via 'subprocess' is disallowed"⟩ : Finding) ∈
      okFindings (lintFile defaultDenyImports "/project" "/artifacts" "c5.py"
        (.src (.parsed
          (.cons (.simport 1 0 [⟨"subprocess", some "sp"⟩])
            (.cons (.sexpr (.ecall 2 0 (.eattr (.ename "sp") "Popen")
              (.cons (.estr "ls") .nil) .nil)) .nil))))) :=
  aliasedSubprocessPopen_cal002 defaultDenyImports "/project" "/artifacts" "c5.py"
    "sp" (by decide) 1 0 2 0 (.cons (.estr "ls") .nil) .nil

/-! ## Every emitted finding has level ERROR -/

theorem fsCheck_allError (c : Ctx) (line col : Nat) (args : ExprList) :
    allError (fsCheck c line col args) = true := by
  unfold fsCheck
  repeat' split
  all_goals simp [allError, mkError]
  all_goals intros
  all_goals subst_vars
  all_goals rfl

theorem callRuleFindings_allError (c : Ctx) (am : AliasMap) (line col : Nat)
    (f : Expr) (args : ExprList) :
    allError (callRuleFindings c am line col f args) = true := by
  unfold callRuleFindings
  rcases hr : resolveCallTarget am f with ⟨tm, tf⟩
  simp only [hr, allError_append, Bool.and_eq_true]
  refine ⟨⟨⟨?_, ?_⟩, ?_⟩, ?_⟩
  · rcases tm with _ | m
    · rfl
    · split <;> simp [allError, mkError]
  · rcases tm with _ | m
    · rfl
    · split <;> simp [allError, mkError]
      all_goals intros
      all_goals subst_vars
      all_goals rfl
  · rcases tm with _ | m
    · rfl
    · split <;> simp [allError, mkError]
      all_goals intros
      all_goals subst_vars
      all_goals rfl
  · split
    · exact fsCheck_allError c line col args
    · rfl

mutual
theorem exprFindings_allError (c : Ctx) (am : AliasMap) :
    ∀ e : Expr, allError (exprFindings c am e) = true
  | .ename _ => rfl
  | .eattr v _ => by simpa [exprFindings] using exprFindings_allError c am v
  | .estr _ => rfl
  | .econstOther => rfl
  | .ecall line col f args kwargs => by
    simp [exprFindings, allError_append, callRuleFindings_allError c am line col f args,
      exprFindings_allError c am f, exprListFindings_allError c am args,
      kwListFindings_allError c am kwargs]
  | .eother cs => by simpa [exprFindings] using exprListFindings_allError c am cs
theorem exprListFindings_allError (c : Ctx) (am : AliasMap) :
    ∀ es : ExprList, allError (exprListFindings c am es) = true
  | .nil => rfl
  | .cons e es => by
    simp [exprListFindings, allError_append, exprFindings_allError c am e,
      exprListFindings_allError c am es]
theorem kwListFindings_allError (c : Ctx) (am : AliasMap) :
    ∀ ks : KwList, allError (kwListFindings c am ks) = true
  | .nil => rfl
  | .cons _ v rest => by
    simp [kwListFindings, allError_append, exprFindings_allError c am v,
      kwListFindings_allError c am rest]
end

theorem allError_addFinding_mkError (st : VState) (c : Ctx) (l co : Nat)
    (code msg : String) (h : allError st.findings = true) :
    allError (addFinding st (mkError c l co code msg)).findings = true := by
  simp only [addFinding]
  rw [allError_append, h]
  rfl

theorem visitImportAliases_allError (c : Ctx) (line col : Nat) :
    ∀ (names : List ImpAlias) (st : VState), allError st.findings = true →
      allError (visitImportAliases c line col st names).findings = true
  | [], _, h => h
  | a :: rest, st, h => by
    have h1 : allError (if topSegment a.name ∈ c.denyImports then
        addFinding st (mkError c line col "IMP001"
          ("Disallowed import: '" ++ topSegment a.name ++ "'"))
      else st).findings = true := by
      split
      · exact allError_addFinding_mkError st c line col "IMP001" _ h
      · exact h
    simp only [visitImportAliases]
    apply visitImportAliases_allError c line col rest
    split
    · split
      · exact h1
      · exact h1
    · exact h1

mutual
theorem visitStmt_allError (c : Ctx) :
    ∀ (s : Stmt) (st : VState), allError st.findings = true →
      allError (visitStmt c st s).findings = true
  | .simport line col names, st, h =>
    visitImportAliases_allError c line col names st h
  | .simportFrom line col mn names, st, h => by
    cases mn with
    | none => exact h
    | some m =>
      simp only [visitStmt]
      split
      · exact allError_addFinding_mkError st c line col "IMP001" _ h
      · exact h
  | .sexpr e, st, h => by
    simp [visitStmt, addFindings, allError_append, h, exprFindings_allError]
  | .sblock exprs body, st, h =>
    visitStmtList_allError c body _ (by
      simp [addFindings, allError_append, h, exprListFindings_allError])
theorem visitStmtList_allError (c : Ctx) :
    ∀ (ss : StmtList) (st : VState), allError st.findings = true →
      allError (visitStmtList c st ss).findings = true
  | .nil, _, h => h
  | .cons s rest, st, h =>
    visitStmtList_allError c rest _ (visitStmt_allError c s st h)
end

theorem lintFile_allError (deny : List String) (pr ar path : String)
    (r : ReadResult) (fs : List Finding)
    (h : lintFile deny pr ar path r = .ok fs) : allError fs = true := by
  cases r with
  | readError => simp [lintFile] at h
  | src p =>
    cases p with
    | syntaxError l off emsg =>
      simp only [lintFile, Except.ok.injEq] at h
      subst h
      rfl
    | parsed body =>
      simp only [lintFile, Except.ok.injEq] at h
      subst h
      exact visitStmtList_allError _ body ⟨[], []⟩ rfl

theorem collectFindings_allError (deny : List String) (pr ar : String) :
    ∀ (files : List (String × ReadResult)) (fs : List Finding),
      collectFindings deny pr ar files = .ok fs → allError fs = true
  | [], fs, h => by
    simp only [collectFindings, Except.ok.injEq] at h
    subst h
    rfl
  | (p, r) :: rest, fs, h => by
    simp only [collectFindings] at h
    cases hf : lintFile deny pr ar p r with
    | error e => rw [hf] at h; simp [Bind.bind, Except.bind] at h
    | ok fs1 =>
      rw [hf] at h
      cases hr : collectFindings deny pr ar rest with
      | error e => rw [hr] at h; simp [Bind.bind, Except.bind] at h
      | ok fs2 =>
        rw [hr] at h
        simp only [Bind.bind, Except.bind, pure, Except.pure, Except.ok.injEq] at h
        subst h
        rw [allError_append, lintFile_allError deny pr ar p r fs1 hf,
          collectFindings_allError deny pr ar rest fs2 hr]
        rfl

theorem allError_hasWarn_false (fs : List Finding)
    (h : allError fs = true) : hasWarn fs = false := by
  cases hw : hasWarn fs with
  | false => rfl
  | true =>
    exfalso
    simp only [hasWarn, List.any_eq_true, beq_iff_eq] at hw
    obtain ⟨f, hf, hlev⟩ := hw
    simp only [allError, List.all_eq_true, beq_iff_eq] at h
    have he := h f hf
    rw [hlev] at he
    exact absurd he (by decide)

/-- Claim C9: every finding any operation produces has level ERROR: in
every completed run all findings are ERROR, `hasWarning` is false, and
flipping the fail-on-warning flag changes neither the findings nor the
exit code. -/
theorem allFindingsError_warnNeverMatters (deny : List String) (pr ar : String)
    (fow fow2 : Bool) (files : List (String × ReadResult))
    (fs : List Finding) (code : Nat)
    (h : runGate deny pr ar fow files = .ok (fs, code)) :
    allError fs = true ∧ hasWarn fs = false ∧
      runGate deny pr ar fow2 files = .ok (fs, code) := by
  cases hc : collectFindings deny pr ar files with
  | error e => simp [runGate, hc, Bind.bind, Except.bind] at h
  | ok fs0 =>
    have hrun : runGate deny pr ar fow files = .ok (fs0, gateExit fow fs0) := by
      simp [runGate, hc, Bind.bind, Except.bind, pure, Except.pure]
    rw [hrun] at h
    have h2 := Except.ok.inj h
    have hfs : fs0 = fs := congrArg Prod.fst h2
    have hcode : gateExit fow fs0 = code := congrArg Prod.snd h2
    subst hfs
    have hae := collectFindings_allError deny pr ar files fs0 hc
    have hw := allError_hasWarn_false fs0 hae
    refine ⟨hae, hw, ?_⟩
    have hrun2 : runGate deny pr ar fow2 files = .ok (fs0, gateExit fow2 fs0) := by
      simp [runGate, hc, Bind.bind, Except.bind, pure, Except.pure]
    rw [hrun2, ← hcode]
    have hgx : gateExit fow2 fs0 = gateExit fow fs0 := by
      simp [gateExit, hw]
    rw [hgx]

/-- Witness for C9: a run over `import socket` with fail-on-warning
off; the same findings and exit code result with it on. -/
theorem allFindingsError_warnNeverMatters_witness :
    allError [⟨"a.py", 1, 0, "ERROR", "IMP001", "Disallowed import: 'socket'"⟩] = true ∧
    hasWarn [⟨"a.py", 1, 0, "ERROR", "IMP001", "Disallowed import: 'socket'"⟩] = false ∧
    runGate ["socket"] "/project" "/artifacts" true
        [("a.py", .src (.parsed (.cons (.simport 1 0 [⟨"socket", none⟩]) .nil)))] =
      .ok ([⟨"a.py", 1, 0, "ERROR", "IMP001", "Disallowed import: 'socket'"⟩], 2) :=
  allFindingsError_warnNeverMatters ["socket"] "/project" "/artifacts" false true
    [("a.py", .src (.parsed (.cons (.simport 1 0 [⟨"socket", none⟩]) .nil)))]
    [⟨"a.py", 1, 0, "ERROR", "IMP001", "Disallowed import: 'socket'"⟩] 2 rfl

/-- Claim C1: a completed run exits with code 2 exactly when some
collected finding has level ERROR, or fail-on-warning is set and some
collected finding has level WARN; in every other case it exits 0. -/
theorem gateExitCode_iff (deny : List String) (pr ar : String) (fow : Bool)
    (files : List (String × ReadResult)) (fs : List Finding) (code : Nat)
    (h : runGate deny pr ar fow files = .ok (fs, code)) :
    code = if (∃ f ∈ fs, f.level = "ERROR") ∨
        (fow = true ∧ ∃ f ∈ fs, f.level = "WARN") then 2 else 0 := by
  cases hc : collectFindings deny pr ar files with
  | error e => simp [runGate, hc, Bind.bind, Except.bind] at h
  | ok fs0 =>
    have hrun : runGate deny pr ar fow files = .ok (fs0, gateExit fow fs0) := by
      simp [runGate, hc, Bind.bind, Except.bind, pure, Except.pure]
    rw [hrun] at h
    have h2 := Except.ok.inj h
    have hfs : fs0 = fs := congrArg Prod.fst h2
    have hcode : gateExit fow fs0 = code := congrArg Prod.snd h2
    subst hfs
    rw [← hcode]
    have hiff : (hasError fs0 || (fow && hasWarn fs0)) = true ↔
        ((∃ f ∈ fs0, f.level = "ERROR") ∨
          (fow = true ∧ ∃ f ∈ fs0, f.level = "WARN")) := by
      simp [hasError, hasWarn, List.any_eq_true]
    rw [gateExit]
    exact if_congr hiff rfl rfl

/-- Witness for C1: the `import socket` run exits 2 because an ERROR
finding was collected. -/
theorem gateExitCode_iff_witness :
    (2 : Nat) = if (∃ f ∈ [(⟨"a.py", 1, 0, "ERROR", "IMP001",
          "Disallowed import: 'socket'"⟩ : Finding)], f.level = "ERROR") ∨
        (false = true ∧ ∃ f ∈ [(⟨"a.py", 1, 0, "ERROR", "IMP001",
          "Disallowed import: 'socket'"⟩ : Finding)], f.level = "WARN")
      then 2 else 0 :=
  gateExitCode_iff ["socket"] "/project" "/artifacts" false
    [("a.py", .src (.parsed (.cons (.simport 1 0 [⟨"socket", none⟩]) .nil)))]
    [⟨"a.py", 1, 0, "ERROR", "IMP001", "Disallowed import: 'socket'"⟩] 2 rfl

/-! ## Batch locality -/

theorem collectFindings_append_ok (deny : List String) (pr ar : String) :
    ∀ (pre : List (String × ReadResult)) (fsPre : List Finding),
      collectFindings deny pr ar pre = .ok fsPre →
      ∀ rest : List (String × ReadResult),
        collectFindings deny pr ar (pre ++ rest) =
          Except.map (fun fs => fsPre ++ fs) (collectFindings deny pr ar rest)
  | [], fsPre, h, rest => by
    simp only [collectFindings, Except.ok.injEq] at h
    subst h
    cases hr : collectFindings deny pr ar rest <;> simp [Except.map, hr]
  | (p, r) :: pre1, fsPre, h, rest => by
    simp only [collectFindings, List.cons_append] at h ⊢
    cases hf : lintFile deny pr ar p r with
    | error e => simp [hf, Bind.bind, Except.bind] at h
    | ok f1 =>
      cases hp : collectFindings deny pr ar pre1 with
      | error e => simp [hf, hp, Bind.bind, Except.bind] at h
      | ok f2 =>
        simp only [hf, hp, Bind.bind, Except.bind, pure, Except.pure,
          Except.ok.injEq] at h
        subst h
        have ih := collectFindings_append_ok deny pr ar pre1 f2 hp rest
        cases hr : collectFindings deny pr ar rest <;>
          simp_all [Except.map, Bind.bind, Except.bind, pure, Except.pure,
            List.append_assoc]

/-- Claim C2 (amended): a parse failure is local to its file — every
sibling is still analyzed, each sibling's findings are exactly what
they would be without the failing file, and the whole batch's findings
are rendered — but a file whose content cannot be read raises an
exception the driver does not catch, aborting the batch. -/
theorem parseFailureLocal_readFailureAborts (deny : List String) (pr ar : String)
    (fow : Bool) (pre post : List (String × ReadResult)) (path : String)
    (l off : Option Nat) (emsg : String) (fsPre fsPost : List Finding)
    (hpre : collectFindings deny pr ar pre = .ok fsPre)
    (hpost : collectFindings deny pr ar post = .ok fsPost) :
    runGate deny pr ar fow (pre ++ (path, .src (.syntaxError l off emsg)) :: post) =
      .ok (fsPre ++ (⟨path, l.getD 0, off.getD 0, "ERROR", "SYN001",
          "SyntaxError: " ++ emsg⟩ : Finding) :: fsPost,
        gateExit fow (fsPre ++ (⟨path, l.getD 0, off.getD 0, "ERROR", "SYN001",
          "SyntaxError: " ++ emsg⟩ : Finding) :: fsPost)) ∧
    collectFindings deny pr ar (pre ++ (path, .readError) :: post) = .error () := by
  constructor
  · have hmid : collectFindings deny pr ar
        ((path, .src (.syntaxError l off emsg)) :: post) =
        .ok ((⟨path, l.getD 0, off.getD 0, "ERROR", "SYN001",
          "SyntaxError: " ++ emsg⟩ : Finding) :: fsPost) := by
      simp [collectFindings, lintFile, hpost, Bind.bind, Except.bind, pure, Except.pure]
    have hall := collectFindings_append_ok deny pr ar pre fsPre hpre
      ((path, .src (.syntaxError l off emsg)) :: post)
    rw [hmid] at hall
    simp only [Except.map] at hall
    simp [runGate, hall, Bind.bind, Except.bind, pure, Except.pure]
  · have hmid : collectFindings deny pr ar ((path, .readError) :: post) =
        .error () := by
      simp [collectFindings, lintFile, Bind.bind, Except.bind]
    have hall := collectFindings_append_ok deny pr ar pre fsPre hpre
      ((path, .readError) :: post)
    rw [hmid] at hall
    simpa [Except.map] using hall

/-- Witness for the amended C2: a batch of a clean file, a syntactically
invalid file, and a file importing `socket` — the parse failure is local
and all three files' findings are rendered; replacing the middle file by
an unreadable one aborts the batch. -/
theorem parseFailureLocal_readFailureAborts_witness :
    runGate defaultDenyImports "/project" "/artifacts" false
        ([("p.py", .src (.parsed .nil))] ++ ("s.py", .src (.syntaxError (some 3) (some 7) "bad")) ::
          [("b.py", .src (.parsed (.cons (.simport 1 0 [⟨"socket", none⟩]) .nil)))]) =
      .ok ([] ++ (⟨"s.py", (some 3).getD 0, (some 7).getD 0, "ERROR", "SYN001",
          "SyntaxError: " ++ "bad"⟩ : Finding) ::
          [⟨"b.py", 1, 0, "ERROR", "IMP001", "Disallowed import: 'socket'"⟩],
        gateExit false ([] ++ (⟨"s.py", (some 3).getD 0, (some 7).getD 0, "ERROR", "SYN001",
          "SyntaxError: " ++ "bad"⟩ : Finding) ::
          [⟨"b.py", 1, 0, "ERROR", "IMP001", "Disallowed import: 'socket'"⟩])) ∧
    collectFindings defaultDenyImports "/project" "/artifacts"
        ([("p.py", .src (.parsed .nil))] ++ ("s.py", .readError) ::
          [("b.py", .src (.parsed (.cons (.simport 1 0 [⟨"socket", none⟩]) .nil)))]) =
      .error () :=
  parseFailureLocal_readFailureAborts defaultDenyImports "/project" "/artifacts" false
    [("p.py", .src (.parsed .nil))]
    [("b.py", .src (.parsed (.cons (.simport 1 0 [⟨"socket", none⟩]) .nil)))]
    "s.py" (some 3) (some 7) "bad" []
    [⟨"b.py", 1, 0, "ERROR", "IMP001", "Disallowed import: 'socket'"⟩] rfl rfl

/-- Counterexample to claim C2 as stated: with an unreadable file in
the batch, the sibling `b.py` (which alone yields an IMP001 finding)
is never reported — the run aborts with an uncaught exception instead
of rendering findings, so a failure to read content is not local. -/
theorem readFailureAborts_counterexample :
    lintFile defaultDenyImports "/project" "/artifacts" "b.py"
        (.src (.parsed (.cons (.simport 1 0 [⟨"socket", none⟩]) .nil))) =
      .ok [⟨"b.py", 1, 0, "ERROR", "IMP001", "Disallowed import: 'socket'"⟩] ∧
    runGate defaultDenyImports "/project" "/artifacts" false
        [("a.py", .readError),
         ("b.py", .src (.parsed (.cons (.simport 1 0 [⟨"socket", none⟩]) .nil)))] =
      .error () :=
  ⟨rfl, rfl⟩

end AstLinter
